import Mathlib

/-!
Shallow embedding of the execution engine of the v2000 market-analysis
repository, together with proofs about its behaviour.

The definitions below are transcribed from the Python sources:
* src/services/component_orchestrator.py  (component registry, execution loop,
  result normalisation and validation)
* src/services/production_content_extractor.py  (extraction strategy chain)
* src/services/ai_manager.py  (AI provider pool, failure handling, selection)
* src/services/production_search_manager.py  (search provider ordering)
* src/routes/analysis.py  (pause / resume / continue HTTP handlers)

Python dictionaries are modelled as association lists with insert-or-replace
assignment, machine floats holding wall-clock times as natural-number seconds,
and exceptions as explicit outcome constructors.
-/

namespace V2000

/-- A Python value, as far as the orchestrator inspects one: dictionaries,
lists, strings, integers, booleans and None.  Dictionaries keep insertion
order, as CPython dicts do. -/
inductive PyVal where
  | dict (entries : List (String × PyVal))
  | list (items : List PyVal)
  | str (s : String)
  | int (n : Int)
  | bool (b : Bool)
  | noneV
  deriving Repr

/-- d.get(key): the first binding of the key, None when absent. -/
def dictGet : List (String × PyVal) → String → Option PyVal
  | [], _ => none
  | (k, v) :: rest, key => if k = key then some v else dictGet rest key

/-- Python truthiness of the values the orchestrator tests. -/
def pyTruthy : PyVal → Bool
  | .dict entries => !entries.isEmpty
  | .list items => !items.isEmpty
  | .str s => !s.data.isEmpty
  | .int n => n != 0
  | .bool b => b
  | .noneV => false

/-- Truthiness of a d.get(key) result: None (absent key) is falsy. -/
def truthyOpt : Option PyVal → Bool
  | none => false
  | some v => pyTruthy v

/-- str(x) for the scalar values that can reach the conversion branch of
_normalize_component_result.  Lists and dicts never reach that branch (the
normaliser handles those shapes first), so their rendering is a placeholder. -/
def pyStr : PyVal → String
  | .str s => s
  | .int n => toString n
  | .bool true => "True"
  | .bool false => "False"
  | .noneV => "None"
  | .list _ => "<list>"
  | .dict _ => "<dict>"

/-- Whether the first list is an initial segment of the second. -/
def leadingMatch : List Char → List Char → Bool
  | [], _ => true
  | _ :: _, [] => false
  | c :: cs, d :: ds => c = d && leadingMatch cs ds

/-- Whether the second character list occurs contiguously in the first. -/
def hasSubstring : List Char → List Char → Bool
  | [], needle => needle.isEmpty
  | hay@(_ :: rest), needle => leadingMatch needle hay || hasSubstring rest needle

/-- Python's needle in haystack on strings. -/
def strHasSub (haystack needle : String) : Bool :=
  hasSubstring haystack.data needle.data

/-- Python's s.lower() (over the character list). -/
def pyLower (s : String) : String := String.mk (s.data.map Char.toLower)

/-- Python's s.strip(): drop whitespace from both ends. -/
def pyStrip (s : String) : String :=
  String.mk
    (((s.data.dropWhile Char.isWhitespace).reverse.dropWhile Char.isWhitespace).reverse)

/-- d[key] = value on an association list: replace the first binding in place,
append when the key is new — CPython dict assignment semantics. -/
def dictSet : List (String × PyVal) → String → PyVal → List (String × PyVal)
  | [], k, v => [(k, v)]
  | (k0, v0) :: rest, k, v =>
      if k0 = k then (k, v) :: rest else (k0, v0) :: dictSet rest k v

/-! ## Component orchestrator (component_orchestrator.py) -/

/-- What a component executor does when invoked: return a value or raise an
exception with message str(e). -/
inductive ExecOutcome where
  | ok (v : PyVal)
  | raises (msg : String)
  deriving Repr

/-- One registered component: ComponentOrchestrator.register_component stores
the executor, the dependency list and the required flag. -/
structure Component where
  name : String
  executor : ExecOutcome
  dependencies : List String
  required : Bool
  deriving Repr

/-- ComponentOrchestrator.register_component.  The registry is a dict keyed by
name (insert-or-replace, insertion order kept).  There is no acyclicity check
and no rejection path: every call registers its component. -/
def registerComponent (reg : List Component) (c : Component) : List Component :=
  if reg.any (fun x => x.name = c.name) then
    reg.map (fun x => if x.name = c.name then c else x)
  else
    reg ++ [c]

/-- ComponentOrchestrator._normalize_component_result. -/
def normalizeComponentResult (name : String) (result : PyVal) : PyVal :=
  match result with
  | .list items =>
      .dict [("success", .bool true), ("data", .list items),
             ("total_items", .int items.length), ("component", .str name)]
  | .dict entries => .dict entries
  | other =>
      .dict [("success", .bool false), ("data", .str (pyStr other)),
             ("component", .str name), ("converted", .bool true)]

/-- ComponentOrchestrator._validate_component_result with the default
expected_type = dict (the only way execute_components calls it): a list is
accepted, any other non-dict is rejected, and a dict is rejected exactly when
it carries a truthy error entry and no truthy fallback_used entry. -/
def validateComponentResult (result : PyVal) : Bool :=
  match result with
  | .dict entries =>
      !(truthyOpt (dictGet entries "error") &&
        !truthyOpt (dictGet entries "fallback_used"))
  | .list _ => true
  | _ => false

/-- The results-map entry that one loop iteration of execute_components
produces for a component: the raised exception becomes
{error: str(e), component: name}; otherwise the normalised result is stored
as-is when the validator accepts it and replaced by a validation-failure
entry when it does not.  (salvar_etapa and the progress callback are
persistence/logging side effects and are modelled as non-raising.) -/
def componentEntry (c : Component) : PyVal :=
  match c.executor with
  | .raises e => .dict [("error", .str e), ("component", .str c.name)]
  | .ok v =>
      let r := normalizeComponentResult c.name v
      if validateComponentResult r then r
      else .dict [("error", .str ("Falha na validação de " ++ c.name)),
                  ("component", .str c.name)]

/-- ComponentOrchestrator.execute_components: iterate over self.components in
registration (dict insertion) order — no topological sort — assigning
results[component_name] for every component, failures included. -/
def executeComponents (reg : List Component) : List (String × PyVal) :=
  reg.foldl (fun results c => dictSet results c.name (componentEntry c)) []

/-! ### Basic association-list lemmas -/

theorem dictSet_fresh (acc : List (String × PyVal)) (k : String) (v : PyVal)
    (h : k ∉ acc.map Prod.fst) : dictSet acc k v = acc ++ [(k, v)] := by
  induction acc with
  | nil => rfl
  | cons hd tl ih =>
      simp only [List.map_cons, List.mem_cons] at h
      push_neg at h
      simp only [dictSet, if_neg (Ne.symm h.1), List.cons_append]
      rw [ih h.2]

theorem foldl_dictSet_eq_append (reg : List Component)
    (acc : List (String × PyVal))
    (hfresh : ∀ c ∈ reg, c.name ∉ acc.map Prod.fst)
    (hnodup : (reg.map Component.name).Nodup) :
    reg.foldl (fun results c => dictSet results c.name (componentEntry c)) acc
      = acc ++ reg.map (fun c => (c.name, componentEntry c)) := by
  induction reg generalizing acc with
  | nil => simp
  | cons c rest ih =>
      simp only [List.map_cons, List.nodup_cons] at hnodup
      have hc : c.name ∉ acc.map Prod.fst := hfresh c (List.mem_cons_self c rest)
      have step : dictSet acc c.name (componentEntry c)
          = acc ++ [(c.name, componentEntry c)] := dictSet_fresh acc _ _ hc
      simp only [List.foldl_cons, step]
      rw [ih (acc ++ [(c.name, componentEntry c)])]
      · simp
      · intro d hd
        have hdacc : d.name ∉ acc.map Prod.fst := hfresh d (List.mem_cons_of_mem c hd)
        have hdc : d.name ≠ c.name := by
          intro hEq
          exact hnodup.1 (hEq ▸ List.mem_map_of_mem Component.name hd)
        simp only [List.map_append, List.map_cons, List.map_nil, List.mem_append,
          List.mem_singleton]
        rintro (h1 | h2)
        · exact hdacc h1
        · exact hdc h2
      · exact hnodup.2

/-- With pairwise-distinct component names (CPython dict keys are unique),
execute_components produces exactly one entry per registered component, in
registration order. -/
theorem executeComponents_eq_map (reg : List Component)
    (hnodup : (reg.map Component.name).Nodup) :
    executeComponents reg = reg.map (fun c => (c.name, componentEntry c)) := by
  have := foldl_dictSet_eq_append reg [] (by intro c _; simp) hnodup
  simpa [executeComponents] using this

theorem dictGet_map_of_mem (reg : List Component) (c : Component)
    (hmem : c ∈ reg) (hnodup : (reg.map Component.name).Nodup) :
    dictGet (reg.map (fun d => (d.name, componentEntry d))) c.name
      = some (componentEntry c) := by
  induction reg with
  | nil => cases hmem
  | cons hd tl ih =>
      simp only [List.map_cons, List.nodup_cons] at hnodup
      rcases List.mem_cons.mp hmem with hEq | htl
      · subst hEq
        simp [dictGet]
      · have hne : hd.name ≠ c.name := by
          intro hEq
          exact hnodup.1 (hEq ▸ List.mem_map_of_mem Component.name htl)
        simp only [List.map_cons, dictGet, if_neg hne]
        exact ih htl hnodup.2

/-! ### The components SuperOrchestrator registers (super_orchestrator.py,
_register_all_components), in source order, with their dependency lists and
required flags.  Executors are abstract: ex gives each component's outcome. -/

def superComponents (ex : String → ExecOutcome) : List Component :=
  [⟨"web_search", ex "web_search", [], true⟩,
   ⟨"social_analysis", ex "social_analysis", ["web_search"], true⟩,
   ⟨"mental_drivers", ex "mental_drivers", ["web_search", "social_analysis"], true⟩,
   ⟨"visual_proofs", ex "visual_proofs", ["mental_drivers"], true⟩,
   ⟨"anti_objection", ex "anti_objection", ["mental_drivers"], true⟩,
   ⟨"pre_pitch", ex "pre_pitch", ["mental_drivers", "anti_objection"], true⟩,
   ⟨"future_predictions", ex "future_predictions", ["web_search", "social_analysis"], true⟩,
   ⟨"avatar_detalhado", ex "avatar_detalhado", ["web_search", "social_analysis"], true⟩,
   ⟨"funil_vendas", ex "funil_vendas", ["mental_drivers", "anti_objection"], false⟩,
   ⟨"analise_concorrencia", ex "analise_concorrencia", ["web_search"], false⟩,
   ⟨"plano_acao", ex "plano_acao", ["mental_drivers", "future_predictions"], false⟩,
   ⟨"posicionamento", ex "posicionamento", ["analise_concorrencia", "avatar_detalhado"], false⟩]

/-- The registry state after SuperOrchestrator._register_all_components has
issued its twelve register_component calls. -/
def superRegistry (ex : String → ExecOutcome) : List Component :=
  (superComponents ex).foldl registerComponent []

theorem superRegistry_eq (ex : String → ExecOutcome) :
    superRegistry ex = superComponents ex := by
  simp [superRegistry, superComponents, registerComponent]

/-- The name/dependency skeleton of a registry. -/
def regSpec (reg : List Component) : List (String × List String) :=
  reg.map (fun c => (c.name, c.dependencies))

/-- Checks that every component's dependencies name only components appearing
earlier (or in the initially seen set). -/
def depOrderOk : List String → List (String × List String) → Bool
  | _, [] => true
  | seen, (n, ds) :: rest =>
      (ds.all fun d => decide (d ∈ seen)) && depOrderOk (n :: seen) rest

theorem depOrderOk_sound :
    ∀ (pre : List (String × List String)) (seen : List String)
      (nd : String × List String) (post : List (String × List String)),
      depOrderOk seen (pre ++ nd :: post) = true →
      ∀ d ∈ nd.2, d ∈ seen ∨ d ∈ pre.map Prod.fst := by
  intro pre
  induction pre with
  | nil =>
      intro seen nd post h d hd
      simp only [List.nil_append, depOrderOk, Bool.and_eq_true, List.all_eq_true] at h
      exact Or.inl (of_decide_eq_true (h.1 d hd))
  | cons c rest ih =>
      intro seen nd post h d hd
      simp only [List.cons_append, depOrderOk, Bool.and_eq_true] at h
      rcases ih (c.1 :: seen) nd post h.2 d hd with h1 | h2
      · rcases List.mem_cons.mp h1 with hc | hs
        · exact Or.inr (by simp [hc])
        · exact Or.inl hs
      · exact Or.inr (by simp only [List.map_cons, List.mem_cons]; exact Or.inr h2)

/-! ## Content extraction chain (production_content_extractor.py) -/

/-- What one extraction strategy does for a given URL: return a string,
return None, or raise. -/
inductive StrategyOutcome where
  | ok (content : String)
  | retNone
  | raises (msg : String)
  deriving Repr, DecidableEq

/-- The success test of ProductionContentExtractor.extract_content:
content truthy (non-empty) and len(content.strip()) > 100 — strictly more
than 100 characters after stripping. -/
def strategyHit (s : String) : Bool :=
  !s.data.isEmpty && decide (100 < (pyStrip s).length)

/-- ProductionContentExtractor.extract_content without a strategy preference:
try the strategies of self.strategies in order; the first one whose content
passes strategyHit is returned; a strategy that returns too little, returns
None or raises is skipped (the try/except logs and continues); when the list
is exhausted the chain returns None.  The argument lists each strategy's
outcome on the URL, in chain order. -/
def extractContent : List StrategyOutcome → Option String
  | [] => none
  | .ok s :: rest => if strategyHit s then some s else extractContent rest
  | .retNone :: rest => extractContent rest
  | .raises _ :: rest => extractContent rest

/-- Specification-style rendering of the chain: the first strategy outcome
that is a sufficiently long string wins. -/
def firstSufficientOutcome (outcomes : List StrategyOutcome) : Option String :=
  outcomes.findSome? fun o =>
    match o with
    | .ok s => if strategyHit s then some s else none
    | _ => none

/-! ## Session control HTTP handlers (routes/analysis.py) -/

/-- The status strings stored in the analysis module's active_sessions map. -/
inductive SessionStatus where
  | running
  | paused
  | completed
  | errored
  deriving Repr, DecidableEq

/-- active_sessions lookup (session_id in active_sessions / subscript). -/
def sessionsGet : List (String × SessionStatus) → String → Option SessionStatus
  | [], _ => none
  | (k, v) :: rest, id => if k = id then some v else sessionsGet rest id

/-- In-place mutation session['status'] = st of the first matching entry. -/
def sessionsSet :
    List (String × SessionStatus) → String → SessionStatus →
    List (String × SessionStatus)
  | [], _, _ => []
  | (k, v) :: rest, id, st =>
      if k = id then (k, st) :: rest else (k, v) :: sessionsSet rest id st

/-- pause_session: 404 when the session id is unknown, 400 (not 409) when the
session is not running, otherwise 200 and the status becomes paused. -/
def pauseSession (sessions : List (String × SessionStatus)) (id : String) :
    Nat × List (String × SessionStatus) :=
  match sessionsGet sessions id with
  | none => (404, sessions)
  | some st =>
      if st ≠ SessionStatus.running then (400, sessions)
      else (200, sessionsSet sessions id SessionStatus.paused)

/-- resume_session: 404 when unknown, 400 (not 409) when the session is not
paused, otherwise 200 and the status becomes running. -/
def resumeSession (sessions : List (String × SessionStatus)) (id : String) :
    Nat × List (String × SessionStatus) :=
  match sessionsGet sessions id with
  | none => (404, sessions)
  | some st =>
      if st ≠ SessionStatus.paused then (400, sessions)
      else (200, sessionsSet sessions id SessionStatus.running)

theorem sessionsGet_sessionsSet_self
    (sessions : List (String × SessionStatus)) (id : String)
    (st0 st : SessionStatus) (h : sessionsGet sessions id = some st0) :
    sessionsGet (sessionsSet sessions id st) id = some st := by
  induction sessions with
  | nil => simp [sessionsGet] at h
  | cons hd tl ih =>
      by_cases hk : hd.1 = id
      · simp [sessionsGet, sessionsSet, hk]
      · simp only [sessionsGet, sessionsSet, if_neg hk] at h ⊢
        exact ih h

/-! ## The continue endpoint (routes/analysis.py, continue_session) -/

/-- The keyword parameters accepted by
SuperOrchestrator.execute_synchronized_analysis (beyond self):
def execute_synchronized_analysis(self, data, session_id, progress_callback=None). -/
def executeSynchronizedAnalysisParams : List String :=
  ["data", "session_id", "progress_callback"]

/-- The keyword arguments the continue_session handler passes to
execute_synchronized_analysis, including continue_from_saved=True. -/
def continueSessionCallKwargs : List String :=
  ["data", "session_id", "progress_callback", "continue_from_saved"]

/-- Whether the call binds (Python raises TypeError on an unexpected keyword
argument otherwise). -/
def continueCallBinds : Bool :=
  continueSessionCallKwargs.all fun k =>
    decide (k ∈ executeSynchronizedAnalysisParams)

/-- The observable outcome of POST /sessions/{id}/continue. -/
structure ContinueResult where
  status : Nat
  /-- components reported with status skipped_from_checkpoint (no code path
  ever produces one: the string does not occur in the repository). -/
  skippedFromCheckpoint : List String
  deriving Repr, DecidableEq

/-- continue_session, given the persisted session info (None when
auto_save_manager.obter_info_sessao finds nothing): 404 when the session is
unknown; 400 when no saved etapa whose name contains requisicao_analise
exists; otherwise the handler rebuilds analysis_data and calls
execute_synchronized_analysis with continue_from_saved=True — a keyword the
method does not accept, so the call raises TypeError, the except branch runs
and the handler returns 500.  No artifact is reloaded into the scheduler and
no component is marked skipped_from_checkpoint on any path. -/
def continueSession (info : Option (List (String × PyVal))) : ContinueResult :=
  match info with
  | none => ⟨404, []⟩
  | some etapas =>
      match etapas.find? (fun e => strHasSub e.1 "requisicao_analise") with
      | none => ⟨400, []⟩
      | some _ =>
          if continueCallBinds then
            ⟨200, []⟩  -- unreachable: continue_from_saved is not a parameter
          else
            ⟨500, []⟩  -- TypeError caught by the handler's except branch

/-! ## AI provider manager (ai_manager.py) -/

/-- The four providers AIManager.__init__ creates, in dict insertion order. -/
inductive PName where
  | gemini
  | groq
  | openai
  | huggingface
  deriving Repr, DecidableEq, Fintype

/-- Dict insertion order of self.providers. -/
def pOrder : List PName := [.gemini, .groq, .openai, .huggingface]

/-- The fixed priority of each provider (lower is preferred). -/
def prio : PName → Nat
  | .gemini => 1
  | .groq => 2
  | .openai => 3
  | .huggingface => 4

/-- The mutable per-provider state of AIManager.  available and the vestigial
consecutive_failures counter live in the per-provider dicts; enabled,
failures (provider_failures), lastFailureTime (last_failure_time) and
lastError are the parallel per-name dicts of the manager.
dictLastFailureTime models providers[name].get('last_failure_time'): no code
ever writes that key, so on every reachable state it is None. -/
structure AIState where
  available : PName → Bool
  enabled : PName → Bool
  failures : PName → Nat
  errorCount : PName → Nat
  consecFail : PName → Nat
  lastFailureTime : PName → Option Nat
  dictLastFailureTime : PName → Option Nat
  lastSuccess : PName → Option Nat
  lastError : PName → Option String
  deriving DecidableEq

/-- Pointwise update of a per-provider map. -/
def updFn {β : Type} (f : PName → β) (p : PName) (b : β) : PName → β :=
  fun q => if q = p then b else f q

/-- AIManager._record_success: reset both failure counters, clear the error
and failure-time records, re-enable, and stamp last_success.  Nothing is
incremented: the manager keeps no total-success or daily-request counter. -/
def recordSuccess (now : Nat) (p : PName) (st : AIState) : AIState :=
  { st with
    consecFail := updFn st.consecFail p 0
    failures := updFn st.failures p 0
    lastError := updFn st.lastError p none
    lastFailureTime := updFn st.lastFailureTime p none
    enabled := updFn st.enabled p true
    lastSuccess := updFn st.lastSuccess p (some now) }

/-- The rate-limit classification of _handle_provider_failure:
"429" in error_str or "Too Many Requests" in error_str or
"rate limit" in error_str.lower(). -/
def isRateLimitError (e : String) : Bool :=
  strHasSub e "429" || strHasSub e "Too Many Requests" ||
    strHasSub (pyLower e) "rate limit"

/-- AIManager._handle_provider_failure (state part).  Second component: the
backoff value min(120 * 2^min(failures, 6), 3600) that the rate-limit branch
computes — it is only logged, never stored, so it is returned separately
here.  The generic branch computes no backoff and disables the provider only
once the consecutive-failure count reaches max_failures = 3; the fixed
cooldown fields are last_failure_time only. -/
def handleProviderFailure (now : Nat) (p : PName) (e : String) (st : AIState) :
    AIState × Option Nat :=
  let f1 := st.failures p + 1
  let st1 := { st with
    failures := updFn st.failures p f1
    lastError := updFn st.lastError p (some e)
    errorCount := updFn st.errorCount p (st.errorCount p + 1) }
  if isRateLimitError e then
    ({ st1 with
        enabled := updFn st1.enabled p false
        lastFailureTime := updFn st1.lastFailureTime p (some now) },
     some (min (120 * 2 ^ min f1 6) 3600))
  else if 3 ≤ f1 then
    ({ st1 with
        enabled := updFn st1.enabled p false
        lastFailureTime := updFn st1.lastFailureTime p (some now) }, none)
  else
    (st1, none)

/-- The cooldown re-enable loop at the top of get_best_provider.  It fires for
a provider only when provider['available'] is False and
provider.get('last_failure_time') is truthy with the 600 s cooldown elapsed —
but that key is read from the per-provider dict, where it is never written,
so on reachable states the loop never re-enables anything. -/
def rehabilitate (now : Nat) (st : AIState) : AIState :=
  let fires : PName → Bool := fun p =>
    !st.available p &&
      (match st.dictLastFailureTime p with
       | some t => t != 0 && decide (600 < now - t)
       | none => false)
  { st with
    available := fun p => if fires p then true else st.available p
    enabled := fun p => if fires p then true else st.enabled p
    failures := fun p => if fires p then 0 else st.failures p
    lastError := fun p => if fires p then none else st.lastError p
    lastFailureTime := fun p => if fires p then none else st.lastFailureTime p }

/-- The availability filter of get_best_provider: available, enabled, and
fewer than max_failures = 3 consecutive failures, scanned in dict order. -/
def availFilter (st : AIState) : List PName :=
  pOrder.filter fun p =>
    st.available p && st.enabled p && decide (st.failures p < 3)

/-- The counter reset get_best_provider performs when no provider passes the
filter: every available provider with a positive consecutive-failure count
gets error_count and provider_failures zeroed, records cleared and is
re-enabled — regardless of how recently it failed. -/
def resetCounters (st : AIState) : AIState :=
  let fires : PName → Bool := fun p =>
    st.available p && decide (0 < st.failures p)
  { st with
    errorCount := fun p => if fires p then 0 else st.errorCount p
    failures := fun p => if fires p then 0 else st.failures p
    lastError := fun p => if fires p then none else st.lastError p
    lastFailureTime := fun p => if fires p then none else st.lastFailureTime p
    enabled := fun p => if fires p then true else st.enabled p }

/-- The sort key order of get_best_provider:
sort(key=lambda x: (x[1]['priority'], self.provider_failures[x[0]])). -/
def provLe (st : AIState) (a b : PName) : Prop :=
  prio a < prio b ∨ (prio a = prio b ∧ st.failures a ≤ st.failures b)

instance provLeDecidable (st : AIState) : DecidableRel (provLe st) :=
  fun a b =>
    inferInstanceAs (Decidable (prio a < prio b ∨ (prio a = prio b ∧ st.failures a ≤ st.failures b)))

instance provLeTotal (st : AIState) : IsTotal PName (provLe st) := by
  constructor
  intro a b
  unfold provLe
  omega

instance provLeTrans (st : AIState) : IsTrans PName (provLe st) := by
  constructor
  intro a b c hab hbc
  unfold provLe at hab hbc ⊢
  omega

instance provLeRefl (st : AIState) : IsRefl PName (provLe st) := by
  constructor
  intro a
  unfold provLe
  omega

/-- Python's stable sort followed by taking element [0]:
available_providers.sort(key=...) and available_providers[0][0]. -/
def pickFirst (st : AIState) (l : List PName) : Option PName :=
  (List.insertionSort (provLe st) l).head?

/-- AIManager.get_best_provider: run the (inert) cooldown loop, filter, and —
when nothing passes — reset the failure counters of available providers and
re-filter on available and enabled only; then return the provider with the
least (priority, consecutive_failures), None when the pool is empty.  The
returned state records the mutations the method performed. -/
def getBestProvider (now : Nat) (st : AIState) : Option PName × AIState :=
  let st1 := rehabilitate now st
  let l := availFilter st1
  if l.isEmpty then
    let st2 := resetCounters st1
    let l2 := pOrder.filter fun p => st2.available p && st2.enabled p
    (pickFirst st2 l2, st2)
  else
    (pickFirst st1 l, st1)

/-! ## Search provider ordering (production_search_manager.py) -/

/-- The four search providers, in dict insertion order. -/
inductive SProv where
  | exa
  | google
  | serper
  | bing
  deriving Repr, DecidableEq, Fintype

def sOrder : List SProv := [.exa, .google, .serper, .bing]

def sprio : SProv → Nat
  | .exa => 1
  | .google => 2
  | .serper => 3
  | .bing => 4

def sMaxErrors : SProv → Nat
  | .exa => 3
  | .google => 3
  | .serper => 3
  | .bing => 5

/-- The mutable search-provider state: the enabled flags fixed at __init__
from the environment, and the per-provider error counters. -/
structure SearchState where
  enabled : SProv → Bool
  errorCount : SProv → Nat
  deriving DecidableEq

/-- ProductionSearchManager._is_provider_available. -/
def searchAvailable (st : SearchState) (p : SProv) : Bool :=
  st.enabled p && decide (st.errorCount p < sMaxErrors p)

/-- The sort key order of _get_provider_order:
sort(key=lambda x: (x[1]['priority'], x[1]['error_count'])). -/
def searchLe (st : SearchState) (a b : SProv) : Prop :=
  sprio a < sprio b ∨ (sprio a = sprio b ∧ st.errorCount a ≤ st.errorCount b)

instance searchLeDecidable (st : SearchState) : DecidableRel (searchLe st) :=
  fun a b =>
    inferInstanceAs (Decidable (sprio a < sprio b ∨ (sprio a = sprio b ∧ st.errorCount a ≤ st.errorCount b)))

instance searchLeTotal (st : SearchState) : IsTotal SProv (searchLe st) := by
  constructor
  intro a b
  unfold searchLe
  omega

instance searchLeTrans (st : SearchState) : IsTrans SProv (searchLe st) := by
  constructor
  intro a b c hab hbc
  unfold searchLe at hab hbc ⊢
  omega

/-- ProductionSearchManager._get_provider_order: the available providers,
stably sorted by (priority, error_count). -/
def getProviderOrder (st : SearchState) : List SProv :=
  List.insertionSort (searchLe st) (sOrder.filter (searchAvailable st))

/-! ## Claim C1 -/

/-- A self-dependent component: its dependency list makes the graph cyclic. -/
def cyclicComp : Component := ⟨"x", .ok (.dict []), ["x"], true⟩

/-- A registry built by registering b (depending on a) before a. -/
def regDependentFirst : List Component :=
  registerComponent
    (registerComponent [] ⟨"b", .ok (.dict []), ["a"], true⟩)
    ⟨"a", .ok (.dict []), [], true⟩

/-- C1 counterexample.  The claim says registration of a cycle-forming
component is rejected and that execute_components follows a stable
(alphabetical) topological order.  Neither holds: register_component performs
no acyclicity check — the self-dependent component x is simply stored — and
execute_components runs executors in registration order, so when b (which
depends on a) is registered before a, b's executor runs before a's. -/
theorem cycle_accepted_and_dependent_runs_first_cex :
    registerComponent [] cyclicComp = [cyclicComp] ∧
    (executeComponents regDependentFirst).map Prod.fst = ["b", "a"] :=
  ⟨rfl, rfl⟩

/-- The name/dependency skeleton of the SuperOrchestrator registry, as a
literal. -/
def superSpecList : List (String × List String) :=
  [("web_search", []),
   ("social_analysis", ["web_search"]),
   ("mental_drivers", ["web_search", "social_analysis"]),
   ("visual_proofs", ["mental_drivers"]),
   ("anti_objection", ["mental_drivers"]),
   ("pre_pitch", ["mental_drivers", "anti_objection"]),
   ("future_predictions", ["web_search", "social_analysis"]),
   ("avatar_detalhado", ["web_search", "social_analysis"]),
   ("funil_vendas", ["mental_drivers", "anti_objection"]),
   ("analise_concorrencia", ["web_search"]),
   ("plano_acao", ["mental_drivers", "future_predictions"]),
   ("posicionamento", ["analise_concorrencia", "avatar_detalhado"])]

theorem regSpec_superComponents (ex : String → ExecOutcome) :
    regSpec (superComponents ex) = superSpecList := rfl

/-- C1 (amended): registration never rejects a component — the registered
component, cyclic dependency list or not, is always present afterwards;
execute_components invokes executors in registration order (one results-map
key per component, in that order), not in a computed topological order; and
for the twelve components SuperOrchestrator registers, that registration
order does respect the dependency graph: every dependency of a component is
registered — hence executed — before it. -/
theorem execute_follows_registration_order :
    (∀ (reg : List Component) (c : Component), c ∈ registerComponent reg c) ∧
    (∀ reg : List Component, (reg.map Component.name).Nodup →
       (executeComponents reg).map Prod.fst = reg.map Component.name) ∧
    (∀ (ex : String → ExecOutcome) (pre : List Component) (c : Component)
       (post : List Component),
       superRegistry ex = pre ++ c :: post →
       ∀ d ∈ c.dependencies, d ∈ pre.map Component.name) := by
  refine ⟨?_, ?_, ?_⟩
  · intro reg c
    unfold registerComponent
    by_cases h : reg.any (fun x => x.name = c.name)
    · rw [if_pos h]
      rcases List.any_eq_true.mp h with ⟨x, hx, hname⟩
      exact List.mem_map.mpr ⟨x, hx, by simp [of_decide_eq_true hname]⟩
    · rw [if_neg h]
      exact List.mem_append.mpr (Or.inr (List.mem_singleton.mpr rfl))
  · intro reg hnodup
    rw [executeComponents_eq_map reg hnodup, List.map_map]
    rfl
  · intro ex pre c post h d hd
    have hsplit : regSpec (superComponents ex)
        = regSpec pre ++ (c.name, c.dependencies) :: regSpec post := by
      rw [← superRegistry_eq ex, h]
      simp [regSpec]
    have hok : depOrderOk [] (regSpec pre ++ (c.name, c.dependencies) :: regSpec post)
        = true := by
      rw [← hsplit, regSpec_superComponents]
      decide
    rcases depOrderOk_sound (regSpec pre) [] (c.name, c.dependencies)
        (regSpec post) hok d hd with h1 | h2
    · cases h1
    · simpa [regSpec, List.map_map, Function.comp] using h2

/-- All executors succeed with an empty document; used by witnesses. -/
def exAllOk : String → ExecOutcome := fun _ => .ok (.dict [])

def wsComp : Component := ⟨"web_search", .ok (.dict []), [], true⟩

def saComp : Component := ⟨"social_analysis", .ok (.dict []), ["web_search"], true⟩

/-- Closed witness for the amended C1 theorem: all three parts applied at
concrete inputs. -/
theorem execute_follows_registration_order_witness :
    (cyclicComp ∈ registerComponent [] cyclicComp) ∧
    ((regDependentFirst.map Component.name).Nodup ∧
      (executeComponents regDependentFirst).map Prod.fst
        = regDependentFirst.map Component.name) ∧
    (superRegistry exAllOk = [wsComp] ++ saComp :: (superComponents exAllOk).drop 2 ∧
      ∀ d ∈ saComp.dependencies, d ∈ [wsComp].map Component.name) := by
  refine ⟨execute_follows_registration_order.1 [] cyclicComp,
          ⟨by decide, execute_follows_registration_order.2.1 regDependentFirst (by decide)⟩,
          ⟨by rw [superRegistry_eq]; rfl, ?_⟩⟩
  exact execute_follows_registration_order.2.2 exAllOk [wsComp] saComp
    ((superComponents exAllOk).drop 2) (by rw [superRegistry_eq]; rfl)

/-! ## Claim C2 -/

/-- C2: with pairwise-distinct registered names (dict keys), the results map
of execute_components has exactly one entry per registered component — no
duplicates, no omissions, whatever the executors do — and a component whose
executor raises e gets exactly the entry {error: str(e), component: name};
the loop then continues, which is witnessed by every later component still
receiving its own entry. -/
theorem results_totality_and_error_entries :
    ∀ reg : List Component, (reg.map Component.name).Nodup →
      ((executeComponents reg).map Prod.fst = reg.map Component.name ∧
       ∀ c ∈ reg, ∀ e, c.executor = .raises e →
         dictGet (executeComponents reg) c.name
           = some (.dict [("error", .str e), ("component", .str c.name)])) := by
  intro reg hnodup
  constructor
  · rw [executeComponents_eq_map reg hnodup, List.map_map]
    rfl
  · intro c hc e he
    rw [executeComponents_eq_map reg hnodup, dictGet_map_of_mem reg c hc hnodup]
    simp [componentEntry, he]

/-- A three-component registry with two raising executors. -/
def demoReg : List Component :=
  [⟨"alpha", .ok (.dict [("k", .str "v")]), [], true⟩,
   ⟨"beta", .raises "boom", ["alpha"], true⟩,
   ⟨"gamma", .raises "crash", ["beta"], false⟩]

/-- Closed witness for C2 at the three-component registry. -/
theorem results_totality_and_error_entries_witness :
    (demoReg.map Component.name).Nodup ∧
    ((executeComponents demoReg).map Prod.fst = demoReg.map Component.name ∧
     ∀ c ∈ demoReg, ∀ e, c.executor = .raises e →
       dictGet (executeComponents demoReg) c.name
         = some (.dict [("error", .str e), ("component", .str c.name)])) :=
  ⟨by decide, results_totality_and_error_entries demoReg (by decide)⟩

/-! ## Claim C8 -/

def isDictV : PyVal → Bool
  | .dict _ => true
  | _ => false

def isListV : PyVal → Bool
  | .list _ => true
  | _ => false

/-- C8: the normaliser turns a sequence into
{success: true, data, total_items, component}, turns any value that is
neither a document nor a sequence into
{success: false, data: str(value), component, converted: true}, and returns
a document unchanged. -/
theorem normalize_result_shapes :
    (∀ (name : String) (items : List PyVal),
       normalizeComponentResult name (.list items)
         = .dict [("success", .bool true), ("data", .list items),
                  ("total_items", .int items.length), ("component", .str name)]) ∧
    (∀ (name : String) (v : PyVal), isDictV v = false → isListV v = false →
       normalizeComponentResult name v
         = .dict [("success", .bool false), ("data", .str (pyStr v)),
                  ("component", .str name), ("converted", .bool true)]) ∧
    (∀ (name : String) (entries : List (String × PyVal)),
       normalizeComponentResult name (.dict entries) = .dict entries) := by
  refine ⟨fun _ _ => rfl, ?_, fun _ _ => rfl⟩
  intro name v h1 h2
  cases v <;> simp_all [isDictV, isListV, normalizeComponentResult]

/-- Closed witness for C8 at the scalar 7. -/
theorem normalize_result_shapes_witness :
    isDictV (.int 7) = false ∧ isListV (.int 7) = false ∧
    normalizeComponentResult "drivers" (.int 7)
      = .dict [("success", .bool false), ("data", .str (pyStr (.int 7))),
               ("component", .str "drivers"), ("converted", .bool true)] :=
  ⟨rfl, rfl, normalize_result_shapes.2.1 "drivers" (.int 7) rfl rfl⟩

/-! ## Claim C10 -/

/-- C10: the component result validator accepts every list, rejects every
value that is neither a dict nor a list, and rejects a dict exactly when it
has a truthy error entry and no truthy fallback_used entry; consequently an
executor's fallback payload with fallback_used = true passes validation and
is stored in the results map as-is — through the success branch of
execute_components — despite carrying an error field. -/
theorem validator_characterization :
    (∀ items : List PyVal, validateComponentResult (.list items) = true) ∧
    (∀ v : PyVal, isDictV v = false → isListV v = false →
       validateComponentResult v = false) ∧
    (∀ entries : List (String × PyVal),
       validateComponentResult (.dict entries) = false ↔
         (truthyOpt (dictGet entries "error") = true ∧
          truthyOpt (dictGet entries "fallback_used") = false)) ∧
    (∀ (name : String) (entries : List (String × PyVal))
       (deps : List String) (req : Bool),
       truthyOpt (dictGet entries "fallback_used") = true →
       componentEntry ⟨name, .ok (.dict entries), deps, req⟩ = .dict entries) := by
  refine ⟨fun _ => rfl, ?_, ?_, ?_⟩
  · intro v h1 h2
    cases v <;> simp_all [isDictV, isListV, validateComponentResult]
  · intro entries
    simp only [validateComponentResult]
    cases truthyOpt (dictGet entries "error") <;>
      cases truthyOpt (dictGet entries "fallback_used") <;> simp
  · intro name entries deps req h
    simp [componentEntry, normalizeComponentResult, validateComponentResult, h]

/-- The fallback payload shape _execute_mental_drivers fabricates on error. -/
def fallbackPayload : List (String × PyVal) :=
  [("error", .str "api down"), ("fallback_used", .bool true),
   ("drivers_basicos", .list [.dict [("nome", .str "Urgência mercado")]])]

/-- Closed witness for C10: the fallback payload and the scalar None. -/
theorem validator_characterization_witness :
    (isDictV .noneV = false ∧ isListV .noneV = false ∧
      validateComponentResult .noneV = false) ∧
    (truthyOpt (dictGet fallbackPayload "fallback_used") = true ∧
      componentEntry ⟨"mental_drivers", .ok (.dict fallbackPayload), [], true⟩
        = .dict fallbackPayload) :=
  ⟨⟨rfl, rfl, validator_characterization.2.1 .noneV rfl rfl⟩,
   ⟨rfl, validator_characterization.2.2.2 "mental_drivers" fallbackPayload [] true rfl⟩⟩

/-! ## Claim C5 -/

/-- A string of exactly 100 characters. -/
def hundredChars : String := String.mk (List.replicate 100 'a')

/-- A string of 101 characters. -/
def hundredOneChars : String := String.mk (List.replicate 101 'a')

/-- C5 counterexample.  The claim says a strategy yielding at least 100
characters — the boundary case of exactly 100 included — wins.  The code
tests len(content.strip()) > 100 strictly, so a strategy returning exactly
100 characters is treated as a failure and the chain returns None, while 101
characters succeed. -/
theorem extract_content_boundary_cex :
    hundredChars.length = 100 ∧
    extractContent [.ok hundredChars] = none ∧
    extractContent [.ok hundredOneChars] = some hundredOneChars := by
  refine ⟨by decide, ?_, ?_⟩ <;> decide

/-- C5 (amended): the chain returns the output of the first strategy whose
content is non-empty and strictly longer than 100 characters after
stripping; exactly 100 characters does not qualify; when no strategy
qualifies the chain returns None; and a strategy that raises never aborts
the chain — removing it from the sequence changes nothing. -/
theorem extract_content_first_hit :
    (∀ outcomes : List StrategyOutcome,
       extractContent outcomes = firstSufficientOutcome outcomes) ∧
    (∀ (before after : List StrategyOutcome) (e : String),
       extractContent (before ++ .raises e :: after)
         = extractContent (before ++ after)) := by
  constructor
  · intro outcomes
    induction outcomes with
    | nil => rfl
    | cons o rest ih =>
        cases o with
        | ok s =>
            by_cases h : strategyHit s
            · simp [extractContent, firstSufficientOutcome, List.findSome?, h]
            · simp only [extractContent, if_neg h, ih, firstSufficientOutcome]
              simp [List.findSome?, h]
        | retNone => simpa [extractContent, firstSufficientOutcome, List.findSome?] using ih
        | raises m => simpa [extractContent, firstSufficientOutcome, List.findSome?] using ih
  · intro before after e
    induction before with
    | nil => rfl
    | cons o rest ih =>
        cases o with
        | ok s =>
            by_cases h : strategyHit s <;>
              simp [extractContent, h, ih]
        | retNone => simpa [extractContent] using ih
        | raises m => simpa [extractContent] using ih

/-! ## Claim C6 -/

/-- C6 counterexample.  The claim says a request whose session state forbids
the transition returns 409; the handlers return 400 in that case: pausing a
completed session and resuming a running one both yield HTTP 400. -/
theorem pause_resume_wrong_state_400_cex :
    (pauseSession [("s1", .completed)] "s1").fst = 400 ∧
    (resumeSession [("s1", .running)] "s1").fst = 400 ∧
    (400 : Nat) ≠ 409 := by
  refine ⟨rfl, rfl, by decide⟩

/-- C6 (amended): pause succeeds only from running and resume only from
paused; an unknown session yields 404; a session whose state forbids the
transition yields 400 (the code never returns 409); on success the handler
returns 200 and the stored status flips to paused respectively running. -/
theorem pause_resume_state_machine :
    ∀ (sessions : List (String × SessionStatus)) (id : String),
      (sessionsGet sessions id = none →
        (pauseSession sessions id).fst = 404 ∧
        (resumeSession sessions id).fst = 404) ∧
      (∀ st, sessionsGet sessions id = some st → st ≠ .running →
        (pauseSession sessions id).fst = 400 ∧
        (pauseSession sessions id).snd = sessions) ∧
      (∀ st, sessionsGet sessions id = some st → st ≠ .paused →
        (resumeSession sessions id).fst = 400 ∧
        (resumeSession sessions id).snd = sessions) ∧
      (sessionsGet sessions id = some .running →
        (pauseSession sessions id).fst = 200 ∧
        sessionsGet (pauseSession sessions id).snd id = some .paused) ∧
      (sessionsGet sessions id = some .paused →
        (resumeSession sessions id).fst = 200 ∧
        sessionsGet (resumeSession sessions id).snd id = some .running) := by
  intro sessions id
  refine ⟨?_, ?_, ?_, ?_, ?_⟩
  · intro h
    constructor <;> simp [pauseSession, resumeSession, h]
  · intro st h hne
    constructor <;> simp [pauseSession, h, hne]
  · intro st h hne
    constructor <;> simp [resumeSession, h, hne]
  · intro h
    refine ⟨by simp [pauseSession, h], ?_⟩
    have : (pauseSession sessions id).snd = sessionsSet sessions id .paused := by
      simp [pauseSession, h]
    rw [this]
    exact sessionsGet_sessionsSet_self sessions id .running .paused h
  · intro h
    refine ⟨by simp [resumeSession, h], ?_⟩
    have : (resumeSession sessions id).snd = sessionsSet sessions id .running := by
      simp [resumeSession, h]
    rw [this]
    exact sessionsGet_sessionsSet_self sessions id .paused .running h

/-- A concrete active_sessions map with one session per state. -/
def demoSessions : List (String × SessionStatus) :=
  [("run1", .running), ("pau1", .paused), ("com1", .completed)]

/-- Closed witness for the amended C6 theorem. -/
theorem pause_resume_state_machine_witness :
    (sessionsGet demoSessions "nope" = none ∧
      (pauseSession demoSessions "nope").fst = 404 ∧
      (resumeSession demoSessions "nope").fst = 404) ∧
    (sessionsGet demoSessions "com1" = some .completed ∧
      (pauseSession demoSessions "com1").fst = 400 ∧
      (pauseSession demoSessions "com1").snd = demoSessions) ∧
    (sessionsGet demoSessions "run1" = some .running ∧
      (pauseSession demoSessions "run1").fst = 200 ∧
      sessionsGet (pauseSession demoSessions "run1").snd "run1" = some .paused) ∧
    (sessionsGet demoSessions "pau1" = some .paused ∧
      (resumeSession demoSessions "pau1").fst = 200 ∧
      sessionsGet (resumeSession demoSessions "pau1").snd "pau1" = some .running) := by
  refine ⟨⟨rfl, (pause_resume_state_machine demoSessions "nope").1 rfl⟩,
          ⟨rfl, (pause_resume_state_machine demoSessions "com1").2.1 .completed rfl (by decide)⟩,
          ⟨rfl, (pause_resume_state_machine demoSessions "run1").2.2.2.1 rfl⟩,
          ⟨rfl, (pause_resume_state_machine demoSessions "pau1").2.2.2.2 rfl⟩⟩

/-! ## Claim C3 -/

/-- The persisted artifacts of a session that completed web_search before
failing: the original job request plus a web_search checkpoint. -/
def persistedEtapas : List (String × PyVal) :=
  [("requisicao_analise", .dict [("segmento", .str "fitness"),
                                 ("produto", .str "coaching app")]),
   ("componente_web_search", .dict [("success", .bool true)])]

/-- C3: the continue endpoint cannot skip checkpointed components.  For a
persisted session holding a job request and a web_search checkpoint, the
handler finds the saved request but then calls
execute_synchronized_analysis(..., continue_from_saved=True) — a keyword the
method's signature (data, session_id, progress_callback) does not accept —
so Python raises TypeError, the except branch answers HTTP 500, and no
component is marked skipped_from_checkpoint (that status is produced nowhere
in the repository, and execute_synchronized_analysis has no
checkpoint-reload logic either). -/
theorem continue_session_typeerror :
    continueCallBinds = false ∧
    continueSession (some persistedEtapas) = ⟨500, []⟩ ∧
    (continueSession (some persistedEtapas)).skippedFromCheckpoint = [] := by
  refine ⟨by decide, by decide, by decide⟩

/-! ## Provider-selection helper lemmas -/

theorem pickFirst_spec (st : AIState) (l : List PName) (hne : l ≠ []) :
    ∃ p, pickFirst st l = some p ∧ p ∈ l ∧ ∀ q ∈ l, provLe st p q := by
  cases hs : List.insertionSort (provLe st) l with
  | nil =>
      exfalso
      have hlen : (List.insertionSort (provLe st) l).length = l.length :=
        (List.perm_insertionSort (provLe st) l).length_eq
      rw [hs] at hlen
      exact hne (List.length_eq_zero.mp hlen.symm)
  | cons p rest =>
      have hperm := List.perm_insertionSort (provLe st) l
      rw [hs] at hperm
      refine ⟨p, ?_, hperm.mem_iff.mp (List.mem_cons_self p rest), ?_⟩
      · simp [pickFirst, hs]
      · intro q hq
        rcases List.mem_cons.mp (hperm.mem_iff.mpr hq) with hEq | hmem
        · subst hEq
          exact refl_of (provLe st) q
        · have hsorted := List.sorted_insertionSort (provLe st) l
          rw [hs] at hsorted
          exact List.rel_of_sorted_cons hsorted q hmem

theorem updFn_idem {β : Type} (f : PName → β) (p : PName) (b : β) :
    updFn (updFn f p b) p b = updFn f p b := by
  funext q
  by_cases h : q = p <;> simp [updFn, h]

/-- The provider state right after startup with every API key configured. -/
def aiInit : AIState :=
  ⟨fun _ => true, fun _ => true, fun _ => 0, fun _ => 0, fun _ => 0,
   fun _ => none, fun _ => none, fun _ => none, fun _ => none⟩

/-! ## Claim C4 -/

/-- The state after one rate-limited failure of gemini at time 0. -/
def rateLimitedState : AIState :=
  (handleProviderFailure 0 .gemini "429 Too Many Requests" aiInit).1

/-- C4 counterexample.  The claim says the failed provider is disabled for
backoff(k) = min(base · 2^min(k,6), 3600) seconds, base 120 for rate limits
and 30 for generic errors.  In the code that formula (with base 120) is only
computed for the log message — here min(120·2¹, 3600) = 240 — while the
disable is open-ended: 4000 s after the failure (past 240 and past the
claimed 3600 cap) gemini is still disabled and selection returns groq.  And
a generic error never disables at all before three consecutive failures, so
no 30-second backoff exists either. -/
theorem provider_backoff_not_applied_cex :
    (handleProviderFailure 0 .gemini "429 Too Many Requests" aiInit).2 = some 240 ∧
    (getBestProvider 4000 rateLimitedState).1 = some .groq ∧
    (getBestProvider 4000 rateLimitedState).2.enabled .gemini = false ∧
    (handleProviderFailure 0 .gemini "connection reset by peer" aiInit).1.enabled
      .gemini = true := by
  refine ⟨by decide, by decide, by decide, by decide⟩

/-- C4 (amended): on a rate-limited failure the provider is disabled and the
value min(120 · 2^min(k,6), 3600) — k the incremented consecutive-failure
count — is computed for logging only; a generic error computes no backoff
(there is no 30-second base) and disables the provider only once k reaches
3; and the cooldown re-enable loop is inert, because it reads the
last_failure_time key of the per-provider dict, which no code path ever
writes: the disable therefore lasts until a success, an explicit reset, or
the all-providers-unavailable counter reset, not for backoff(k) seconds. -/
theorem provider_failure_backoff_behavior :
    ∀ (st : AIState) (now : Nat) (p : PName) (e : String),
      (isRateLimitError e = true →
        ((handleProviderFailure now p e st).1.enabled p = false ∧
         (handleProviderFailure now p e st).1.failures p = st.failures p + 1 ∧
         (handleProviderFailure now p e st).1.lastFailureTime p = some now ∧
         (handleProviderFailure now p e st).2
           = some (min (120 * 2 ^ min (st.failures p + 1) 6) 3600))) ∧
      (isRateLimitError e = false →
        ((handleProviderFailure now p e st).2 = none ∧
         (st.failures p + 1 < 3 →
           (handleProviderFailure now p e st).1.enabled p = st.enabled p) ∧
         (3 ≤ st.failures p + 1 →
           (handleProviderFailure now p e st).1.enabled p = false))) ∧
      ((∀ q, st.dictLastFailureTime q = none) → rehabilitate now st = st) := by
  intro st now p e
  refine ⟨?_, ?_, ?_⟩
  · intro h
    refine ⟨?_, ?_, ?_, ?_⟩ <;> simp [handleProviderFailure, h, updFn]
  · intro h
    refine ⟨?_, ?_, ?_⟩
    · by_cases h3 : 3 ≤ st.failures p + 1 <;>
        simp [handleProviderFailure, h, h3]
    · intro hlt
      have h3 : ¬ 3 ≤ st.failures p + 1 := by omega
      simp [handleProviderFailure, h, h3]
    · intro h3
      simp [handleProviderFailure, h, h3, updFn]
  · intro hnone
    cases st with
    | mk av en fa ec cf lft dlft ls le =>
        simp only at hnone
        simp only [rehabilitate]
        congr 1 <;> funext q <;> simp [hnone q]

/-- Closed witness for the amended C4 theorem: both failure kinds and the
inert cooldown loop at concrete inputs. -/
theorem provider_failure_backoff_behavior_witness :
    (isRateLimitError "429 Too Many Requests" = true ∧
      ((handleProviderFailure 7 .gemini "429 Too Many Requests" aiInit).1.enabled
          .gemini = false ∧
       (handleProviderFailure 7 .gemini "429 Too Many Requests" aiInit).1.failures
          .gemini = aiInit.failures .gemini + 1 ∧
       (handleProviderFailure 7 .gemini "429 Too Many Requests" aiInit).1.lastFailureTime
          .gemini = some 7 ∧
       (handleProviderFailure 7 .gemini "429 Too Many Requests" aiInit).2
          = some (min (120 * 2 ^ min (aiInit.failures .gemini + 1) 6) 3600))) ∧
    (isRateLimitError "connection reset by peer" = false ∧
      ((handleProviderFailure 7 .gemini "connection reset by peer" aiInit).2 = none ∧
       (aiInit.failures .gemini + 1 < 3 →
         (handleProviderFailure 7 .gemini "connection reset by peer" aiInit).1.enabled
           .gemini = aiInit.enabled .gemini) ∧
       (3 ≤ aiInit.failures .gemini + 1 →
         (handleProviderFailure 7 .gemini "connection reset by peer" aiInit).1.enabled
           .gemini = false))) ∧
    ((∀ q, aiInit.dictLastFailureTime q = none) ∧ rehabilitate 9999 aiInit = aiInit) :=
  ⟨⟨by decide, (provider_failure_backoff_behavior aiInit 7 .gemini
      "429 Too Many Requests").1 (by decide)⟩,
   ⟨by decide, (provider_failure_backoff_behavior aiInit 7 .gemini
      "connection reset by peer").2.1 (by decide)⟩,
   ⟨fun q => rfl, (provider_failure_backoff_behavior aiInit 9999 .gemini "x").2.2
      (fun q => rfl)⟩⟩

/-! ## Claim C9 -/

/-- C9 (amended): record_success re-enables the provider, zeroes both
consecutive-failure counters, clears the last error and failure time, and
stamps last_success; the cumulative error_count is left untouched and
nothing at all is incremented — the manager has no total_successes or
requests_today counter, and accordingly record_success is idempotent. -/
theorem record_success_resets_only :
    ∀ (st : AIState) (p : PName) (now : Nat),
      (recordSuccess now p st).enabled p = true ∧
      (recordSuccess now p st).failures p = 0 ∧
      (recordSuccess now p st).consecFail p = 0 ∧
      (recordSuccess now p st).lastError p = none ∧
      (recordSuccess now p st).lastFailureTime p = none ∧
      (recordSuccess now p st).lastSuccess p = some now ∧
      (∀ q, (recordSuccess now p st).errorCount q = st.errorCount q) ∧
      (∀ q, (recordSuccess now p st).available q = st.available q) ∧
      recordSuccess now p (recordSuccess now p st) = recordSuccess now p st := by
  intro st p now
  refine ⟨?_, ?_, ?_, ?_, ?_, ?_, fun q => rfl, fun q => rfl, ?_⟩ <;>
    simp [recordSuccess, updFn, updFn_idem]

/-- A provider state carrying failure history on gemini. -/
def wornState : AIState :=
  ⟨fun _ => true, updFn (fun _ => true) .gemini false,
   updFn (fun _ => 0) .gemini 2, updFn (fun _ => 0) .gemini 5,
   updFn (fun _ => 0) .gemini 7, updFn (fun _ => none) .gemini (some 50),
   fun _ => none, fun _ => none, updFn (fun _ => none) .gemini (some "boom")⟩

/-- C9 counterexample.  The claim says record_success increments the
provider's total_successes and requests_today counters.  No such counters
exist: applied twice, record_success yields exactly the state it yields
once — impossible if any counter were incremented — and the one cumulative
counter that does exist, error_count, is unchanged (still 5). -/
theorem record_success_no_increment_cex :
    recordSuccess 100 .gemini (recordSuccess 100 .gemini wornState)
      = recordSuccess 100 .gemini wornState ∧
    (recordSuccess 100 .gemini wornState).errorCount .gemini = 5 ∧
    wornState.errorCount .gemini = 5 := by
  refine ⟨by simp [recordSuccess, updFn_idem], by decide, by decide⟩

/-! ## Claim C7 -/

/-- C7: search provider ordering returns exactly the available providers
(enabled, error budget not exhausted), sorted ascending by
(priority, error_count) — and since the configured priorities are pairwise
distinct in both registries, ties between distinct providers cannot occur,
so the stable-order (by-name) tie-break clause is satisfied vacuously.  AI
provider selection likewise: whenever some provider passes the availability
filter after the cooldown pass, get_best_provider returns a provider that
passes the filter and is minimal under (priority, consecutive_failures)
among all providers that pass it. -/
theorem provider_selection_ordering :
    (∀ st : SearchState,
       getProviderOrder st = sOrder.filter (searchAvailable st) ∧
       List.Sorted (searchLe st) (getProviderOrder st) ∧
       (∀ p, p ∈ getProviderOrder st ↔ searchAvailable st p = true)) ∧
    (∀ (st : AIState) (now : Nat),
       availFilter (rehabilitate now st) ≠ [] →
       ∃ p, (getBestProvider now st).1 = some p ∧
         p ∈ availFilter (rehabilitate now st) ∧
         ∀ q ∈ availFilter (rehabilitate now st),
           provLe (rehabilitate now st) p q) ∧
    (∀ p q : PName, p ≠ q → prio p ≠ prio q) ∧
    (∀ p q : SProv, p ≠ q → sprio p ≠ sprio q) := by
  refine ⟨?_, ?_, by decide, by decide⟩
  · intro st
    have hpair : List.Pairwise (fun a b => sprio a < sprio b) sOrder := by decide
    have hsorted : List.Sorted (searchLe st) (sOrder.filter (searchAvailable st)) :=
      (hpair.filter (searchAvailable st)).imp (fun h => Or.inl h)
    have heq : getProviderOrder st = sOrder.filter (searchAvailable st) :=
      List.Sorted.insertionSort_eq hsorted
    refine ⟨heq, heq ▸ hsorted, ?_⟩
    intro p
    have hall : p ∈ sOrder := by cases p <;> decide
    rw [heq, List.mem_filter]
    simp [hall]
  · intro st now hne
    have hb : (availFilter (rehabilitate now st)).isEmpty = false := by
      rcases h : availFilter (rehabilitate now st) with _ | ⟨a, l⟩
      · exact absurd h hne
      · rfl
    obtain ⟨p, hp1, hp2, hp3⟩ :=
      pickFirst_spec (rehabilitate now st) (availFilter (rehabilitate now st)) hne
    refine ⟨p, ?_, hp2, hp3⟩
    simp only [getBestProvider, hb, Bool.false_eq_true, if_false]
    exact hp1

/-- A search state with serper over its error budget and a fresh AI state:
closed witness for C7. -/
def wornSearch : SearchState :=
  ⟨fun _ => true, fun q => if q = SProv.serper then 3 else 0⟩

theorem provider_selection_ordering_witness :
    (getProviderOrder wornSearch = sOrder.filter (searchAvailable wornSearch) ∧
     List.Sorted (searchLe wornSearch) (getProviderOrder wornSearch) ∧
     (∀ p, p ∈ getProviderOrder wornSearch ↔ searchAvailable wornSearch p = true)) ∧
    (availFilter (rehabilitate 0 aiInit) ≠ [] ∧
     ∃ p, (getBestProvider 0 aiInit).1 = some p ∧
       p ∈ availFilter (rehabilitate 0 aiInit) ∧
       ∀ q ∈ availFilter (rehabilitate 0 aiInit), provLe (rehabilitate 0 aiInit) p q) :=
  ⟨provider_selection_ordering.1 wornSearch,
   by decide, provider_selection_ordering.2.1 aiInit 0 (by decide)⟩
